import Mathlib

/- Shallow embedding of the coordination and data-flow core of the
   guochunyang/mapreduce pipeline (Go, package mapreduce).  Pure functions
   mirror the source functions in src/reduce.go and src/keyhandlers.go;
   I/O-producing calls (user Map/Reduce code, intermediate storage, the
   datastore) are passed in as function parameters or explicit result lists.
   Machine strings and byte slices are modelled as Lean String / List Char. -/

namespace Mapreduce

/- Go error values as the pipeline uses them.  `fatal` models
   `FatalError{Err error}` (src/reduce.go line 651), `tryAgain` models
   `tryAgainError{err error}` (line 657), `plain` stands for any other
   error value. -/
inductive GoErr where
  | fatal : GoErr → GoErr
  | tryAgain : GoErr → GoErr
  | plain : String → GoErr
deriving DecidableEq, Repr

/- The error classification applied to user-code errors on the map path and
   to the in-loop Reduce error on the reduce path (src/reduce.go lines
   161-167, 407-415, 445-453, 456-464): a FatalError is unwrapped to its
   inner error, anything else is wrapped as tryAgainError.  (At line 163 the
   source spells the inner field `.err` although FatalError declares `Err`;
   the selector can only denote the single wrapped error, which is what we
   model.) -/
def classifyUserError : GoErr → GoErr
  | .fatal e => e
  | e => .tryAgain e

/- The JobTask record, restricted to the fields the claims touch
   (src/reduce.go lines 300-306, 747-751).  ReadFrom holds the shard-name
   list; the zlib-compressed JSON wire encoding is an injective byte-level
   serialization performed by library code, modelled here by carrying the
   decoded list itself. -/
structure JobTask where
  status : String := ""
  url : String := ""
  readFrom : List String := []
  separateReduceItems : Bool := false
  typ : String := ""
  info : String := ""
  result : String := ""
deriving DecidableEq, Repr, Inhabited

/- Modelled from the spec: the task status and type constants are declared
   outside the provided source files; only their distinctness matters. -/
def TaskStatusPending : String := "pending"

def TaskTypeMap : String := "map"

def TaskTypeReduce : String := "reduce"

/- Append x to the i-th bucket of a bucket list; used for the per-shard
   buffers of mapperFunc and the per-partition name lists of
   mapMonitorTask.  A Go slice index out of range panics; theorems about
   this helper carry an in-range hypothesis. -/
def setAppend (l : List (List α)) (i : Nat) (x : α) : List (List α) :=
  l.set i (l.getD i [] ++ [x])

lemma setAppend_length (l : List (List α)) (i : Nat) (x : α) :
    (setAppend l i x).length = l.length := by
  simp [setAppend]

lemma setAppend_getD_self (l : List (List α)) (i : Nat) (x : α) (h : i < l.length) :
    (setAppend l i x).getD i [] = l.getD i [] ++ [x] := by
  simp [setAppend, List.getD_eq_getElem?_getD,
    List.getElem?_set_eq_of_lt _ h, List.getElem?_eq_getElem h]

lemma setAppend_getD_ne (l : List (List α)) (i j : Nat) (x : α) (h : i ≠ j) :
    (setAppend l i x).getD j [] = l.getD j [] := by
  simp [setAppend, List.getD_eq_getElem?_getD, List.getElem?_set_ne h]

/- Ordered merger, modelled from the spec (its source file is not among the
   provided files; src/reduce.go lines 109-112 and 143-154 only construct
   and drive it).  Spec 4.1: the state is a set of (iterator, currentItem)
   pairs; next() selects the pair with the least current key, ties broken
   stably with the earlier iterator preferred, returns that item, advances
   the iterator and drops it when exhausted.  Streams are modelled as lists
   of (key, value) items. -/
def leastHead (less : K → K → Bool) : List (List (K × V)) → Option (Nat × K)
  | [] => none
  | s :: rest =>
    let tailBest := (leastHead less rest).map (fun p => (p.1 + 1, p.2))
    match s with
    | [] => tailBest
    | (k, _) :: _ =>
      match tailBest with
      | none => some (0, k)
      | some (j, k2) => if less k2 k then some (j, k2) else some (0, k)

def advanceAt : List (List (K × V)) → Nat → Option (K × V) × List (List (K × V))
  | [], _ => (none, [])
  | s :: rest, 0 =>
    match s with
    | [] => (none, s :: rest)
    | item :: tl => (some item, if tl.isEmpty then rest else tl :: rest)
  | s :: rest, i + 1 =>
    let p := advanceAt rest i
    (p.1, s :: p.2)

def mergeLive (less : K → K → Bool) : Nat → List (List (K × V)) → List (K × V)
  | 0, _ => []
  | fuel + 1, streams =>
    match leastHead less streams with
    | none => []
    | some (i, _) =>
      match advanceAt streams i with
      | (none, _) => []
      | (some item, streams2) => item :: mergeLive less fuel streams2

def mergeStreams (less : K → K → Bool) (streams : List (List (K × V))) : List (K × V) :=
  mergeLive less (streams.map List.length).sum streams

/- The grouping loop of ReduceFunc (src/reduce.go lines 150-185), carried
   out over the merged stream.  Returns the argument list of every Reduce
   invocation, the results written to the output writer, and the error the
   function returns, if any.  The in-loop Reduce error (lines 161-167) goes
   through classifyUserError; the final-group Reduce error (lines 179-180)
   is returned unmodified, exactly as in the source. -/
def reduceLoop (equal : K → K → Bool) (reduce : K → List V → Except GoErr (Option R)) :
    K → List V → List (K × V) → List (K × List V) × List R × Option GoErr
  | key, values, [] =>
    match reduce key values with
    | .error e => ([(key, values)], [], some e)
    | .ok none => ([(key, values)], [], none)
    | .ok (some r) => ([(key, values)], [r], none)
  | key, values, (k, v) :: rest =>
    if equal key k then reduceLoop equal reduce key (values ++ [v]) rest
    else
      match reduce key values with
      | .error e => ([(key, values)], [], some (classifyUserError e))
      | .ok none =>
        let t := reduceLoop equal reduce k [v] rest
        ((key, values) :: t.1, t.2.1, t.2.2)
      | .ok (some r) =>
        let t := reduceLoop equal reduce k [v] rest
        ((key, values) :: t.1, r :: t.2.1, t.2.2)

/- Observable outcome of one run of ReduceFunc: the Reduce invocations, the
   values handed to the output writer, the intermediate shards removed, and
   the returned error. -/
structure ReduceOutcome (K V R : Type) where
  calls : List (K × List V)
  writes : List R
  removed : List String
  err : Option GoErr
deriving Repr

/- ReduceFunc (src/reduce.go lines 104-206).  Each intermediate shard is a
   named stream of (key, value) items; iterators yielding no items are
   dropped (lines 114-128); if all are empty every shard is removed and the
   function returns nil (lines 130-138); otherwise the merged stream is
   grouped by the loop above, ReduceComplete results are written (lines
   187-195, its error returned unmodified), and all shards are removed
   (lines 199-203). -/
def ReduceFunc (less equal : K → K → Bool)
    (reduce : K → List V → Except GoErr (Option R))
    (reduceComplete : Except GoErr (List R))
    (shards : List (String × List (K × V))) : ReduceOutcome K V R :=
  let streams := (shards.map Prod.snd).filter (fun s => !s.isEmpty)
  if streams.isEmpty then
    { calls := [], writes := [], removed := shards.map Prod.fst, err := none }
  else
    match mergeStreams less streams with
    | [] => { calls := [], writes := [], removed := [], err := none }
    | (k, v) :: rest =>
      match reduceLoop equal reduce k [v] rest with
      | (calls, writes, some e) => { calls := calls, writes := writes, removed := [], err := some e }
      | (calls, writes, none) =>
        match reduceComplete with
        | .error e => { calls := calls, writes := writes, removed := [], err := some e }
        | .ok rs =>
          { calls := calls, writes := writes ++ rs,
            removed := shards.map Prod.fst, err := none }

/- A merged stream presented as a concatenation of key groups: group
   (k, vs) contributes the items (k, v) for v in vs, in order. -/
def groupStream (gs : List (K × List V)) : List (K × V) :=
  (gs.map (fun g => g.2.map (fun v => (g.1, v)))).flatten

/- State of the read loop of mapperFunc (src/reduce.go lines 394-441):
   per-shard buffers, the spills written so far (each recorded as the
   snapshot of the buffers handed to writeSpill), the byte accumulator and
   the item counter. -/
structure MapLoopState (K V : Type) where
  dataSets : List (List (K × V))
  spills : List (List (List (K × V)))
  size : Nat
  count : Nat
deriving Repr

/- One iteration of mapperFunc's read loop for one input item whose Map call
   produced itemList (src/reduce.go lines 417-440): each mapped item is
   appended to the buffer of its shard, its dumped-value length added to the
   byte accumulator; if the accumulator then exceeds 4*1024*1024 a spill is
   written, the accumulator and counter are reset and every buffer is
   cleared for reuse.  writeSpill itself lives outside the provided source;
   spec 4.2 says it sorts and persists the buffers, which the claims here do
   not depend on, so a spill is recorded as the buffer snapshot. -/
def mapLoopStep (shard : K → Nat) (dumpLen : V → Nat)
    (s : MapLoopState K V) (itemList : List (K × V)) : MapLoopState K V :=
  let dataSets := itemList.foldl (fun ds it => setAppend ds (shard it.1) it) s.dataSets
  let size := s.size + (itemList.map (fun it => dumpLen it.2)).sum
  let count := s.count + itemList.length
  if size > 4 * 1024 * 1024 then
    { dataSets := dataSets.map (fun _ => []),
      spills := s.spills ++ [dataSets],
      size := 0, count := 0 }
  else
    { dataSets := dataSets, spills := s.spills, size := size, count := count }

/- The spill-merge retry loop of mapperFunc (src/reduce.go lines 477-487):
   finalNames starts empty; for try in 0..4, if mergeSpills fails the
   failure is only logged, otherwise finalNames is filled with the inverted
   shard-to-name map and the loop breaks.  mergeSpills is I/O, modelled by
   the per-try result function f. -/
def mergeTryLoop (f : Nat → Except GoErr (List (Nat × String))) (tryIdx : Nat) :
    List (String × Nat) :=
  if h : tryIdx < 5 then
    match f tryIdx with
    | .error _ => mergeTryLoop f (tryIdx + 1)
    | .ok names => names.map (fun p => (p.2, p.1))
  else []
termination_by 5 - tryIdx

/- The tail of mapperFunc after MapComplete and the final spill succeeded
   (src/reduce.go lines 477-495).  The `err` tested at line 489 is the
   function-scope variable: every path reaching line 477 has already
   returned on a non-nil err (lines 445, 456), so it is nil here; the
   per-try error of mergeSpills at line 479 is a new variable scoped to the
   if statement and never escapes the loop.  The outerErr parameter makes
   that function-scope variable explicit. -/
def mergePhase (f : Nat → Except GoErr (List (Nat × String)))
    (outerErr : Option GoErr) : Except GoErr (List (String × Nat)) :=
  let finalNames := mergeTryLoop f 0
  match outerErr with
  | some e => .error (.tryAgain e)
  | none => .ok finalNames

/- mapperFunc reaches the merge phase with the function-scope err nil. -/
def mapperMergeResult (f : Nat → Except GoErr (List (Nat × String))) :
    Except GoErr (List (String × Nat)) :=
  mergePhase f none

/- Building storageNames in mapMonitorTask (src/reduce.go lines 264-277):
   one bucket per writer name; every map task's Result decodes to a
   name-to-shard map and each (name, shard) pair appends name to bucket
   shard.  A Go map's iteration order is arbitrary; each decoded Result is
   modelled as an association list in some order.  An out-of-range shard
   index panics in Go; theorems exclude it by hypothesis. -/
def buildStorageNames (m : Nat) (results : List (List (String × Nat))) :
    List (List String) :=
  results.foldl (fun acc res => res.foldl (fun a p => setAppend a p.2 p.1) acc)
    (List.replicate m [])

/- The reduce-task construction loop of mapMonitorTask (src/reduce.go lines
   287-308): for each shard index in order, a partition with a non-empty
   name list yields one reduce task whose task key index is the number of
   tasks created so far, whose ReadFrom payload is the partition's name
   list (zlib+JSON encoded on the wire), and which inherits the job's
   SeparateReduceItems flag.  url.QueryEscape on the writer name is an
   injective encoding, modelled as the name itself. -/
def makeReduceTasksAux (urlPref : String) (writerNames : List String) (sep : Bool)
    (encodeKey : Nat → String) (storageNames : List (List String)) :
    List Nat → List JobTask → List JobTask
  | [], tasks => tasks
  | shard :: rest, tasks =>
    let shards := storageNames.getD shard []
    if shards.isEmpty then
      makeReduceTasksAux urlPref writerNames sep encodeKey storageNames rest tasks
    else
      makeReduceTasksAux urlPref writerNames sep encodeKey storageNames rest
        (tasks ++ [{ status := TaskStatusPending,
                     url := urlPref ++ "/reduce?taskKey=" ++ encodeKey tasks.length ++
                       ";shard=" ++ toString shard ++ ";writer=" ++
                       writerNames.getD shard "",
                     readFrom := shards,
                     separateReduceItems := sep,
                     typ := TaskTypeReduce }])

def makeReduceTasks (urlPref : String) (writerNames : List String) (sep : Bool)
    (encodeKey : Nat → String) (storageNames : List (List String)) : List JobTask :=
  makeReduceTasksAux urlPref writerNames sep encodeKey storageNames
    (List.range writerNames.length) []

/- Run (src/reduce.go lines 713-775), restricted to its pure core: the
   reader and writer name lists have already been fetched (their I/O
   failures are not modelled), and the datastore id window is modelled by
   the encodeKey function from task index to encoded key.  An empty reader
   list fails before anything is created; an empty writer list fails next;
   otherwise the reducer count is the number of writer names and one map
   task per reader name is built with the /map URL. -/
def Run (urlPref : String) (readerNames writerNames : List String)
    (encodeKey : Nat → String) : Except String (List JobTask) :=
  if readerNames.isEmpty then .error "no input readers"
  else if writerNames.isEmpty then .error "no output writers"
  else
    let reducerCount := writerNames.length
    .ok ((List.range readerNames.length).map (fun i =>
      { status := TaskStatusPending,
        url := urlPref ++ "/map?taskKey=" ++ encodeKey i ++ ";reader=" ++
          readerNames.getD i "" ++ ";shards=" ++ toString reducerCount,
        typ := TaskTypeMap }))

/- Modelled from the spec: updateTask is not among the provided source
   files (it is called at src/reduce.go lines 66, 88, 97, 829, 841).  Spec
   4.7 and the /mapstatus route: the message is written to the task's Info
   field under an update that does not change Status; an empty status
   argument leaves the Status field untouched. -/
def updateTask (t : JobTask) (status : String) (msg : String) : JobTask :=
  { t with status := if status = "" then t.status else status, info := msg }

/- makeStatusUpdateFunc (src/reduce.go lines 836-845): the returned closure
   formats its message with Sprintf (modelled by passing the formatted
   message), decodes the task key and updates the task with an empty status
   and the message as Info; a decode or update failure is logged and
   swallowed, leaving the task unchanged — the closure returns nothing
   either way.  ok models whether decode and update both succeed. -/
def makeStatusUpdateFunc (ok : Bool) (t : JobTask) (msg : String) : JobTask :=
  if ok then updateTask t "" msg else t

/- StringKeyHandler (src/keyhandlers.go lines 47-53).  KeyDump is the byte
   slice of the string and KeyLoad converts the bytes back; both Go
   conversions are byte copies, so the byte array is modelled by the string
   itself.  KeyLoad never errors. -/
def stringKeyDump (a : String) : String := a

def stringKeyLoad (a : String) : Option String := some a

/- Decimal digit machinery modelling strconv.FormatInt / strconv.ParseInt
   in base 10 as used by Int64KeyHandler (src/keyhandlers.go lines 75-86).
   A byte slice of ASCII digits is modelled as a list of characters. -/
def digitChar (n : Nat) : Char := Char.ofNat (48 + n)

def natDigits (n : Nat) : List Char :=
  if h : n < 10 then [digitChar n]
  else natDigits (n / 10) ++ [digitChar (n % 10)]
decreasing_by exact Nat.div_lt_self (by omega) (by omega)

def digitVal (c : Char) : Option Nat :=
  if 48 ≤ c.toNat ∧ c.toNat ≤ 57 then some (c.toNat - 48) else none

def parseDigitsAux (acc : Nat) : List Char → Option Nat
  | [] => some acc
  | c :: rest =>
    match digitVal c with
    | none => none
    | some d => parseDigitsAux (acc * 10 + d) rest

/- ParseInt rejects an empty digit string. -/
def parseDigits : List Char → Option Nat
  | [] => none
  | cs => parseDigitsAux 0 cs

/- strconv.FormatInt(i, 10) for an int64 value: minus sign for negatives,
   then the decimal digits of the absolute value. -/
def formatInt64 (i : Int) : List Char :=
  if i < 0 then '-' :: natDigits i.natAbs else natDigits i.toNat

/- strconv.ParseInt(s, 10, 64): optional sign, decimal digits, 64-bit range
   check. -/
def parseInt64 (s : List Char) : Option Int :=
  match s with
  | [] => none
  | c :: rest =>
    if c = '-' then
      match parseDigits rest with
      | none => none
      | some n => if (n : Int) ≤ 9223372036854775808 then some (-(n : Int)) else none
    else
      let digits := if c = '+' then rest else c :: rest
      match parseDigits digits with
      | none => none
      | some n => if (n : Int) ≤ 9223372036854775807 then some ((n : Int)) else none

/- Int64KeyHandler (src/keyhandlers.go lines 75-86): KeyDump formats the
   int64 in decimal, KeyLoad parses it back with strconv.ParseInt base 10
   bit size 64 and returns the error on failure. -/
def int64KeyDump (i : Int) : List Char := formatInt64 i

def int64KeyLoad (b : List Char) : Option Int := parseInt64 b

/- The output-writer traffic the grouping loop generates for a given list
   of Reduce invocations: one write per invocation whose Reduce result is
   non-nil, in invocation order. -/
def reduceWrites (reduce : K → List V → Except GoErr (Option R))
    (calls : List (K × List V)) : List R :=
  calls.filterMap (fun c =>
    match reduce c.1 c.2 with
    | .ok (some r) => some r
    | _ => none)

lemma getD_map_range (f : Nat → α) (d : α) (n i : Nat) (h : i < n) :
    ((List.range n).map f).getD i d = f i := by
  rw [List.getD_eq_getElem?_getD, List.getElem?_map, List.getElem?_range h]
  rfl

/-- C3: the reduce engine of this source never consults SeparateReduceItems
(the flag is copied onto the reduce JobTask by mapMonitorTask at
src/reduce.go line 304 but ReduceFunc never reads it): over the merged
stream [("a",1),("a",2)] the engine performs one grouped call
Reduce("a",[1,2]) instead of the two singleton calls the claim requires. -/
theorem reduceFunc_groups_despite_separate_flag :
    (ReduceFunc (fun a b => decide (a < b)) (fun a b : String => a == b)
      (fun _ vs => Except.ok (some vs.length))
      (Except.ok ([] : List Nat))
      [("s0", [("a", 1), ("a", 2)])]).calls = [("a", [1, 2])] := by
  decide

/-- C2: on the reduce path the error of the final-group Reduce call
(src/reduce.go lines 179-180) and of ReduceComplete (lines 187-188) is
returned unmodified: a plain user error is not wrapped as tryAgainError and
a FatalError is not unwrapped, contradicting the claim that every user-code
error is classified on both paths. -/
theorem reduceFunc_final_group_error_not_classified :
    (ReduceFunc (fun a b => decide (a < b)) (fun a b : String => a == b)
      (fun _ _ => (Except.error (GoErr.plain "boom") : Except GoErr (Option Nat)))
      (Except.ok [])
      [("s0", [("a", 1)])]).err = some (GoErr.plain "boom") ∧
    some (GoErr.plain "boom") ≠ some (GoErr.tryAgain (GoErr.plain "boom")) ∧
    (ReduceFunc (fun a b => decide (a < b)) (fun a b : String => a == b)
      (fun _ _ => (Except.error (GoErr.fatal (GoErr.plain "f")) : Except GoErr (Option Nat)))
      (Except.ok [])
      [("s0", [("a", 1)])]).err = some (GoErr.fatal (GoErr.plain "f")) ∧
    some (GoErr.fatal (GoErr.plain "f")) ≠ some (GoErr.plain "f") := by
  refine ⟨by decide, by decide, by decide, by decide⟩

/-- C4: when every one of the five mergeSpills attempts fails, mapperFunc
returns a nil error and an empty name map instead of a tryAgainError: the
err tested after the retry loop (src/reduce.go line 489) is the
function-scope variable, which is nil on every path reaching the loop,
because the loop's own err is a new variable scoped to its if statement. -/
theorem mapper_merge_failure_reports_success :
    mapperMergeResult (fun _ => Except.error (GoErr.plain "merge failed")) =
      Except.ok [] := by
  simp [mapperMergeResult, mergePhase, mergeTryLoop]

/-- C7: when every input shard's iterator yields no items, ReduceFunc
removes every intermediate shard, performs no Reduce or ReduceComplete
call, writes nothing, and returns nil (src/reduce.go lines 114-138). -/
theorem reduceFunc_all_empty (less equal : K → K → Bool)
    (reduce : K → List V → Except GoErr (Option R))
    (reduceComplete : Except GoErr (List R))
    (shards : List (String × List (K × V)))
    (h : ∀ s ∈ shards, s.2 = []) :
    ReduceFunc less equal reduce reduceComplete shards =
      { calls := [], writes := [], removed := shards.map Prod.fst, err := none } := by
  have hs : (shards.map Prod.snd).filter (fun s => !s.isEmpty) = [] := by
    rw [List.filter_eq_nil_iff]
    intro a ha
    obtain ⟨p, hp, hpa⟩ := List.mem_map.mp ha
    subst hpa
    simp [h p hp]
  simp [ReduceFunc, hs]

theorem reduceFunc_all_empty_witness :
    ReduceFunc (K := Nat) (V := Nat) (R := Nat) (fun _ _ => false) (fun _ _ => false)
      (fun _ _ => Except.ok none) (Except.ok [])
      [("sh0", []), ("sh1", [])] =
      { calls := [], writes := [], removed := ["sh0", "sh1"], err := none } :=
  reduceFunc_all_empty (fun _ _ => false) (fun _ _ => false)
    (fun _ _ => Except.ok none) (Except.ok []) [("sh0", []), ("sh1", [])]
    (by decide)

/-- C9: the status update closure writes the formatted message to the
task's Info field only, passing an empty status so Status is unchanged, and
a decode or update failure leaves the task untouched without propagating
any error (src/reduce.go lines 836-845, updateTask modelled from the
spec). -/
theorem statusUpdate_only_info (t : JobTask) (msg : String) :
    makeStatusUpdateFunc true t msg = { t with info := msg } ∧
    makeStatusUpdateFunc false t msg = t := by
  constructor <;> simp [makeStatusUpdateFunc, updateTask]

/-- C6: one iteration of mapperFunc's read loop spills exactly when the
accumulated dumped-value byte size exceeds 4*1024*1024, and immediately
after a spill the accumulator is reset to zero and every per-partition
buffer is cleared; without a spill the buffers' contents are kept and the
accumulator carries the new total (src/reduce.go lines 417-440). -/
theorem mapper_spill_iff (shard : K → Nat) (dumpLen : V → Nat)
    (s : MapLoopState K V) (itemList : List (K × V)) :
    ((mapLoopStep shard dumpLen s itemList).spills.length = s.spills.length + 1 ↔
      s.size + (itemList.map (fun it => dumpLen it.2)).sum > 4 * 1024 * 1024) ∧
    (s.size + (itemList.map (fun it => dumpLen it.2)).sum > 4 * 1024 * 1024 →
      (mapLoopStep shard dumpLen s itemList).size = 0 ∧
      ∀ b ∈ (mapLoopStep shard dumpLen s itemList).dataSets, b = []) ∧
    (s.size + (itemList.map (fun it => dumpLen it.2)).sum ≤ 4 * 1024 * 1024 →
      (mapLoopStep shard dumpLen s itemList).spills = s.spills ∧
      (mapLoopStep shard dumpLen s itemList).size =
        s.size + (itemList.map (fun it => dumpLen it.2)).sum) := by
  by_cases hc : s.size + (itemList.map (fun it => dumpLen it.2)).sum > 4 * 1024 * 1024
  · refine ⟨by simp [mapLoopStep, hc], fun _ => ⟨by simp [mapLoopStep, hc], ?_⟩,
      fun hle => absurd hc (by omega)⟩
    intro b hb
    simp only [mapLoopStep, if_pos hc, List.mem_map] at hb
    obtain ⟨x, hx, hfx⟩ := hb
    exact hfx.symm
  · exact ⟨by simp [mapLoopStep, hc], fun hgt => absurd hgt hc,
      fun _ => ⟨by simp [mapLoopStep, hc], by simp [mapLoopStep, hc]⟩⟩

theorem mapper_spill_iff_witness :
    (((mapLoopStep (K := Nat) (fun _ => 0) (fun v => v)
        ⟨[[]], [], 4194300, 0⟩ [(0, 5)]).spills.length =
        ([] : List (List (List (Nat × Nat)))).length + 1 ↔
      4194300 + ([(0, 5)].map (fun it : Nat × Nat => it.2)).sum > 4 * 1024 * 1024) ∧
    (4194300 + ([(0, 5)].map (fun it : Nat × Nat => it.2)).sum > 4 * 1024 * 1024 →
      (mapLoopStep (fun _ => 0) (fun v => v) ⟨[[]], [], 4194300, 0⟩ [(0, 5)]).size = 0 ∧
      ∀ b ∈ (mapLoopStep (fun _ => 0) (fun v => v)
        ⟨[[]], [], 4194300, 0⟩ [(0, 5)]).dataSets, b = []) ∧
    (4194300 + ([(0, 5)].map (fun it : Nat × Nat => it.2)).sum ≤ 4 * 1024 * 1024 →
      (mapLoopStep (fun _ => 0) (fun v => v) ⟨[[]], [], 4194300, 0⟩ [(0, 5)]).spills = [] ∧
      (mapLoopStep (fun _ => 0) (fun v => v) ⟨[[]], [], 4194300, 0⟩ [(0, 5)]).size =
        4194300 + ([(0, 5)].map (fun it : Nat × Nat => it.2)).sum)) :=
  mapper_spill_iff (fun _ => 0) (fun v => v) ⟨[[]], [], 4194300, 0⟩ [(0, 5)]

/-- C8: Run fails with "no input readers" when the reader name list is
empty and with "no output writers" when the writer name list is empty,
creating no tasks in either case; otherwise it creates exactly one map task
per reader name whose URL is prefix/map?taskKey=enc;reader=name;shards=M
with M the number of writer names (src/reduce.go lines 713-752). -/
theorem run_tasks (urlPref : String) (readerNames writerNames : List String)
    (encodeKey : Nat → String) :
    (readerNames = [] → Run urlPref readerNames writerNames encodeKey =
      Except.error "no input readers") ∧
    (readerNames ≠ [] → writerNames = [] →
      Run urlPref readerNames writerNames encodeKey =
        Except.error "no output writers") ∧
    (readerNames ≠ [] → writerNames ≠ [] → ∃ tasks,
      Run urlPref readerNames writerNames encodeKey = Except.ok tasks ∧
      tasks.length = readerNames.length ∧
      ∀ i, i < readerNames.length →
        (tasks.getD i default).url =
          urlPref ++ "/map?taskKey=" ++ encodeKey i ++ ";reader=" ++
            readerNames.getD i "" ++ ";shards=" ++ toString writerNames.length) := by
  refine ⟨fun h => by simp [Run, h], fun h1 h2 => ?_, fun h1 h2 => ?_⟩
  · obtain ⟨r, rs, rfl⟩ := List.exists_cons_of_ne_nil h1
    simp [Run, h2]
  · obtain ⟨r, rs, rfl⟩ := List.exists_cons_of_ne_nil h1
    obtain ⟨w, ws, rfl⟩ := List.exists_cons_of_ne_nil h2
    refine ⟨_, rfl, by simp, fun i hi => ?_⟩
    rw [getD_map_range _ _ _ _ hi]

theorem run_tasks_witness :
    ((["r0"] = ([] : List String) → Run "/mr" ["r0"] ["w0", "w1"] (fun i => toString i) =
      Except.error "no input readers") ∧
    (["r0"] ≠ ([] : List String) → ["w0", "w1"] = ([] : List String) →
      Run "/mr" ["r0"] ["w0", "w1"] (fun i => toString i) =
        Except.error "no output writers") ∧
    (["r0"] ≠ ([] : List String) → ["w0", "w1"] ≠ ([] : List String) → ∃ tasks,
      Run "/mr" ["r0"] ["w0", "w1"] (fun i => toString i) = Except.ok tasks ∧
      tasks.length = ["r0"].length ∧
      ∀ i, i < ["r0"].length →
        (tasks.getD i default).url =
          "/mr" ++ "/map?taskKey=" ++ toString i ++ ";reader=" ++
            ["r0"].getD i "" ++ ";shards=" ++ toString ["w0", "w1"].length)) :=
  run_tasks "/mr" ["r0"] ["w0", "w1"] (fun i => toString i)

lemma digitVal_digitChar (d : Nat) (h : d < 10) : digitVal (digitChar d) = some d := by
  interval_cases d <;> decide

lemma parseDigitsAux_append (acc : Nat) (xs ys : List Char) :
    parseDigitsAux acc (xs ++ ys) =
      match parseDigitsAux acc xs with
      | none => none
      | some a => parseDigitsAux a ys := by
  induction xs generalizing acc with
  | nil => rfl
  | cons c xs ih =>
    cases hdv : digitVal c with
    | none => simp [parseDigitsAux, hdv]
    | some d => simp [parseDigitsAux, hdv, ih]

lemma natDigits_ne_nil (n : Nat) : natDigits n ≠ [] := by
  rw [natDigits]
  split <;> simp

lemma parseDigitsAux_natDigits (n : Nat) : parseDigitsAux 0 (natDigits n) = some n := by
  induction n using Nat.strong_induction_on with
  | _ n ih =>
    rw [natDigits]
    split
    · next h => simp [parseDigitsAux, digitVal_digitChar n h]
    · next h =>
      rw [parseDigitsAux_append, ih (n / 10) (Nat.div_lt_self (by omega) (by omega))]
      have h10 : n % 10 < 10 := Nat.mod_lt _ (by omega)
      simp only [parseDigitsAux, digitVal_digitChar (n % 10) h10]
      exact congrArg some (by omega)

lemma parseDigits_natDigits (n : Nat) : parseDigits (natDigits n) = some n := by
  obtain ⟨c, cs, hcs⟩ := List.exists_cons_of_ne_nil (natDigits_ne_nil n)
  rw [hcs]
  show parseDigitsAux 0 (c :: cs) = some n
  rw [← hcs, parseDigitsAux_natDigits]

lemma natDigits_head (n : Nat) : ∃ d cs, natDigits n = digitChar d :: cs ∧ d < 10 := by
  induction n using Nat.strong_induction_on with
  | _ n ih =>
    rw [natDigits]
    split
    · next h => exact ⟨n, [], rfl, h⟩
    · next h =>
      obtain ⟨d, cs, hcs, hd⟩ := ih (n / 10) (Nat.div_lt_self (by omega) (by omega))
      exact ⟨d, cs ++ [digitChar (n % 10)], by rw [hcs]; rfl, hd⟩

lemma digitChar_ne_minus (d : Nat) (h : d < 10) : digitChar d ≠ '-' := by
  interval_cases d <;> decide

lemma digitChar_ne_plus (d : Nat) (h : d < 10) : digitChar d ≠ '+' := by
  interval_cases d <;> decide

/-- C10: for StringKeyHandler, KeyLoad after KeyDump is the identity with
no error for every string key; for Int64KeyHandler, KeyDump formats the
int64 in decimal and KeyLoad parses it back, so the round trip is the
identity for every value in the int64 range (src/keyhandlers.go lines
47-53 and 75-86). -/
theorem keyHandlers_dump_load_id :
    (∀ s : String, stringKeyLoad (stringKeyDump s) = some s) ∧
    (∀ i : Int, -9223372036854775808 ≤ i → i ≤ 9223372036854775807 →
      int64KeyLoad (int64KeyDump i) = some i) := by
  refine ⟨fun s => rfl, fun i hlo hhi => ?_⟩
  by_cases hneg : i < 0
  · have h1 : int64KeyDump i = '-' :: natDigits i.natAbs := by
      rw [int64KeyDump, formatInt64, if_pos hneg]
    rw [int64KeyLoad, h1]
    show (if ('-' : Char) = '-' then
        match parseDigits (natDigits i.natAbs) with
        | none => none
        | some n => if (n : Int) ≤ 9223372036854775808 then some (-(n : Int)) else none
      else
        match parseDigits (if ('-' : Char) = '+' then natDigits i.natAbs
            else '-' :: natDigits i.natAbs) with
        | none => none
        | some n => if (n : Int) ≤ 9223372036854775807 then some ((n : Int)) else none) =
      some i
    rw [if_pos rfl, parseDigits_natDigits]
    show (if ((i.natAbs : Int)) ≤ 9223372036854775808 then some (-(i.natAbs : Int))
      else none) = some i
    rw [if_pos (by omega)]
    exact congrArg some (by omega)
  · obtain ⟨d, cs, hcs, hd⟩ := natDigits_head i.toNat
    have h1 : int64KeyDump i = digitChar d :: cs := by
      rw [int64KeyDump, formatInt64, if_neg hneg, hcs]
    rw [int64KeyLoad, h1]
    show (if digitChar d = '-' then
        match parseDigits cs with
        | none => none
        | some n => if (n : Int) ≤ 9223372036854775808 then some (-(n : Int)) else none
      else
        match parseDigits (if digitChar d = '+' then cs else digitChar d :: cs) with
        | none => none
        | some n => if (n : Int) ≤ 9223372036854775807 then some ((n : Int)) else none) =
      some i
    rw [if_neg (digitChar_ne_minus d hd), if_neg (digitChar_ne_plus d hd), ← hcs,
      parseDigits_natDigits]
    show (if ((i.toNat : Int)) ≤ 9223372036854775807 then some ((i.toNat : Int))
      else none) = some i
    rw [if_pos (by omega)]
    exact congrArg some (by omega)

theorem keyHandlers_dump_load_id_witness :
    stringKeyLoad (stringKeyDump "alpha") = some "alpha" ∧
    int64KeyLoad (int64KeyDump (-42)) = some (-42) :=
  ⟨keyHandlers_dump_load_id.1 "alpha",
   keyHandlers_dump_load_id.2 (-42) (by decide) (by decide)⟩

lemma buildStorageNames_eq_foldl (m : Nat) (results : List (List (String × Nat))) :
    buildStorageNames m results =
      results.flatten.foldl (fun a p => setAppend a p.2 p.1) (List.replicate m []) := by
  rw [buildStorageNames, List.foldl_flatten]

lemma foldl_setAppend_getD (p : Nat) (pairs : List (String × Nat)) :
    ∀ (acc : List (List String)), (∀ q ∈ pairs, q.2 < acc.length) → p < acc.length →
    (pairs.foldl (fun a q => setAppend a q.2 q.1) acc).getD p [] =
      acc.getD p [] ++ pairs.filterMap (fun q => if q.2 = p then some q.1 else none) := by
  induction pairs with
  | nil => intro acc _ _; simp
  | cons q pairs ih =>
    intro acc hq hp
    have hlen := setAppend_length acc q.2 q.1
    rw [List.foldl_cons,
      ih _ (fun r hr => by rw [hlen]; exact hq r (List.mem_cons_of_mem _ hr)) (by omega)]
    by_cases hqp : q.2 = p
    · subst hqp
      rw [setAppend_getD_self _ _ _ (hq q (List.mem_cons_self _ _))]
      simp [List.filterMap_cons]
    · rw [setAppend_getD_ne _ _ _ _ hqp]
      simp [List.filterMap_cons, hqp]

lemma buildStorageNames_getD (m : Nat) (results : List (List (String × Nat)))
    (hm : ∀ r ∈ results, ∀ q ∈ r, q.2 < m) (p : Nat) (hp : p < m) :
    (buildStorageNames m results).getD p [] =
      results.flatten.filterMap (fun q => if q.2 = p then some q.1 else none) := by
  rw [buildStorageNames_eq_foldl,
    foldl_setAppend_getD p _ _ ?_ (by simpa using hp)]
  · simp [List.getD_eq_getElem?_getD, List.getElem?_replicate_of_lt hp]
  · intro q hq
    rw [List.length_replicate]
    obtain ⟨r, hr, hqr⟩ := List.mem_flatten.mp hq
    exact hm r hr q hqr

lemma filterMap_if_sublist (p : Nat) (l : List (String × Nat)) :
    (l.filterMap (fun q => if q.2 = p then some q.1 else none)).Sublist
      (l.map Prod.fst) := by
  induction l with
  | nil => simp
  | cons q l ih =>
    by_cases h : q.2 = p
    · simpa [List.filterMap_cons, h] using ih.cons₂ q.1
    · simpa [List.filterMap_cons, h] using ih.cons q.1

lemma makeReduceTasksAux_map_readFrom (urlPref : String) (writerNames : List String)
    (sep : Bool) (encodeKey : Nat → String) (storageNames : List (List String))
    (idxs : List Nat) :
    ∀ (tasks : List JobTask),
    (makeReduceTasksAux urlPref writerNames sep encodeKey storageNames idxs tasks).map
        (fun t => t.readFrom) =
      tasks.map (fun t => t.readFrom) ++
        idxs.filterMap (fun p =>
          if (storageNames.getD p []).isEmpty then none
          else some (storageNames.getD p [])) := by
  induction idxs with
  | nil => intro tasks; simp [makeReduceTasksAux]
  | cons p idxs ih =>
    intro tasks
    by_cases h : storageNames.getD p [] = []
    all_goals rw [List.getD_eq_getElem?_getD] at h
    · simp [makeReduceTasksAux, h, ih, List.filterMap_cons]
    · simp [makeReduceTasksAux, h, ih, List.filterMap_cons]

/-- C5: when the map stage completes, exactly one reduce task is built for
each partition whose collected shard-name list is non-empty and none for an
empty partition, in partition order, each task's ReadFrom payload carrying
that partition's name list; and for every partition the collected list is
exactly the names advertised for it across all map task Results, each name
exactly once when the advertised names are globally distinct
(src/reduce.go lines 264-308). -/
theorem mapMonitor_reduce_tasks (urlPref : String) (writerNames : List String)
    (sep : Bool) (encodeKey : Nat → String) (results : List (List (String × Nat)))
    (hm : ∀ r ∈ results, ∀ q ∈ r, q.2 < writerNames.length)
    (hnodup : (results.flatten.map Prod.fst).Nodup) :
    ((makeReduceTasks urlPref writerNames sep encodeKey
        (buildStorageNames writerNames.length results)).map (fun t => t.readFrom) =
      (List.range writerNames.length).filterMap (fun p =>
        if ((buildStorageNames writerNames.length results).getD p []).isEmpty then none
        else some ((buildStorageNames writerNames.length results).getD p []))) ∧
    (∀ p, p < writerNames.length →
      (buildStorageNames writerNames.length results).getD p [] =
        results.flatten.filterMap (fun q => if q.2 = p then some q.1 else none) ∧
      ((buildStorageNames writerNames.length results).getD p []).Nodup) := by
  refine ⟨?_, fun p hp => ?_⟩
  · rw [makeReduceTasks, makeReduceTasksAux_map_readFrom]
    simp
  · refine ⟨buildStorageNames_getD _ _ hm p hp, ?_⟩
    rw [buildStorageNames_getD _ _ hm p hp]
    exact hnodup.sublist (filterMap_if_sublist p results.flatten)

theorem mapMonitor_reduce_tasks_witness :
    (((makeReduceTasks "/mr" ["w0", "w1", "w2"] false (fun i => toString i)
        (buildStorageNames ["w0", "w1", "w2"].length
          [[("n1", 0), ("n2", 1)], [("n3", 0)]])).map (fun t => t.readFrom) =
      (List.range ["w0", "w1", "w2"].length).filterMap (fun p =>
        if ((buildStorageNames ["w0", "w1", "w2"].length
            [[("n1", 0), ("n2", 1)], [("n3", 0)]]).getD p []).isEmpty then none
        else some ((buildStorageNames ["w0", "w1", "w2"].length
            [[("n1", 0), ("n2", 1)], [("n3", 0)]]).getD p []))) ∧
    (∀ p, p < ["w0", "w1", "w2"].length →
      (buildStorageNames ["w0", "w1", "w2"].length
          [[("n1", 0), ("n2", 1)], [("n3", 0)]]).getD p [] =
        [[("n1", 0), ("n2", 1)], [("n3", 0)]].flatten.filterMap
          (fun q => if q.2 = p then some q.1 else none) ∧
      ((buildStorageNames ["w0", "w1", "w2"].length
          [[("n1", 0), ("n2", 1)], [("n3", 0)]]).getD p []).Nodup)) :=
  mapMonitor_reduce_tasks "/mr" ["w0", "w1", "w2"] false (fun i => toString i)
    [[("n1", 0), ("n2", 1)], [("n3", 0)]] (by decide) (by decide)

lemma groupStream_cons (g : K × List V) (gs : List (K × List V)) :
    groupStream (g :: gs) = g.2.map (fun v => (g.1, v)) ++ groupStream gs := by
  simp [groupStream]

lemma mergeStreams_nil (less : K → K → Bool) :
    mergeStreams (V := V) less [] = [] := rfl

lemma reduceLoop_run (equal : K → K → Bool)
    (reduce : K → List V → Except GoErr (Option R)) (k : K) (hk : equal k k = true)
    (ws : List V) :
    ∀ (vs : List V) (rest : List (K × V)),
    reduceLoop equal reduce k vs (ws.map (fun v => (k, v)) ++ rest) =
      reduceLoop equal reduce k (vs ++ ws) rest := by
  induction ws with
  | nil => intro vs rest; simp
  | cons w ws ih =>
    intro vs rest
    simp only [List.map_cons, List.cons_append, reduceLoop, hk, if_true, List.append_eq]
    rw [ih (vs ++ [w]) rest, List.append_assoc]
    rfl

lemma reduceLoop_groups (equal : K → K → Bool)
    (reduce : K → List V → Except GoErr (Option R)) (gs : List (K × List V)) :
    ∀ (k : K) (vs : List V),
    equal k k = true →
    (∀ g ∈ gs, equal g.1 g.1 = true) →
    List.Chain' (fun a b => equal a b = false) (k :: gs.map Prod.fst) →
    (∀ g ∈ gs, g.2 ≠ []) →
    (∃ r, reduce k vs = .ok r) →
    (∀ g ∈ gs, ∃ r, reduce g.1 g.2 = .ok r) →
    reduceLoop equal reduce k vs (groupStream gs) =
      ((k, vs) :: gs, reduceWrites reduce ((k, vs) :: gs), none) := by
  induction gs with
  | nil =>
    intro k vs _ _ _ _ hok _
    obtain ⟨r, hr⟩ := hok
    cases r with
    | none => simp [groupStream, reduceLoop, hr, reduceWrites]
    | some r => simp [groupStream, reduceLoop, hr, reduceWrites]
  | cons g gs ih =>
    intro k vs hk hrefl hchain hne hok hoks
    obtain ⟨k2, ws⟩ := g
    obtain ⟨w, ws2, rfl⟩ := List.exists_cons_of_ne_nil (hne (k2, ws) (List.mem_cons_self _ _))
    have hk2 : equal k2 k2 = true := hrefl (k2, _) (List.mem_cons_self _ _)
    have hkk2 : equal k k2 = false := by
      have := hchain
      rw [List.map_cons, List.chain'_cons] at this
      exact this.1
    have hchain2 : List.Chain' (fun a b => equal a b = false) (k2 :: gs.map Prod.fst) := by
      have := hchain
      rw [List.map_cons, List.chain'_cons] at this
      exact this.2
    rw [groupStream_cons]
    simp only [List.map_cons, List.cons_append, reduceLoop, hkk2, if_false,
      Bool.false_eq_true]
    have hrun : reduceLoop equal reduce k2 [w] (ws2.map (fun v => (k2, v)) ++ groupStream gs) =
        reduceLoop equal reduce k2 (w :: ws2) (groupStream gs) := by
      rw [reduceLoop_run equal reduce k2 hk2 ws2 [w] (groupStream gs)]
      rfl
    have hrec : reduceLoop equal reduce k2 (w :: ws2) (groupStream gs) =
        ((k2, w :: ws2) :: gs, reduceWrites reduce ((k2, w :: ws2) :: gs), none) := by
      refine ih k2 (w :: ws2) hk2 (fun g hg => hrefl g (List.mem_cons_of_mem _ hg)) hchain2
        (fun g hg => hne g (List.mem_cons_of_mem _ hg))
        (hoks (k2, w :: ws2) (List.mem_cons_self _ _))
        (fun g hg => hoks g (List.mem_cons_of_mem _ hg))
    obtain ⟨r, hr⟩ := hok
    cases r with
    | none => simp [hr, hrun, hrec, reduceWrites]
    | some r => simp [hr, hrun, hrec, reduceWrites]

/-- C1: for every non-empty merged stream that is a concatenation of key
groups with pairwise non-equal keys, ReduceFunc performs exactly one Reduce
call per group, handing it the group's key and the list of all its merged
values, writes every non-nil Reduce result (followed by the ReduceComplete
results) to the output writer, flushes the final group after the stream
ends, and returns nil (src/reduce.go lines 140-206). -/
theorem reduceFunc_grouping (less equal : K → K → Bool)
    (reduce : K → List V → Except GoErr (Option R)) (crs : List R)
    (shards : List (String × List (K × V))) (gs : List (K × List V))
    (hne : gs ≠ [])
    (hvals : ∀ g ∈ gs, g.2 ≠ [])
    (hrefl : ∀ g ∈ gs, equal g.1 g.1 = true)
    (hdist : (gs.map Prod.fst).Pairwise (fun a b => equal a b = false))
    (hok : ∀ g ∈ gs, ∃ r, reduce g.1 g.2 = .ok r)
    (hmerge : mergeStreams less ((shards.map Prod.snd).filter (fun s => !s.isEmpty)) =
      groupStream gs) :
    (ReduceFunc less equal reduce (Except.ok crs) shards).calls = gs ∧
    (ReduceFunc less equal reduce (Except.ok crs) shards).writes =
      reduceWrites reduce gs ++ crs ∧
    (ReduceFunc less equal reduce (Except.ok crs) shards).err = none := by
  obtain ⟨g0, gs2, rfl⟩ := List.exists_cons_of_ne_nil hne
  obtain ⟨k0, vs0⟩ := g0
  obtain ⟨v0, vs1, rfl⟩ := List.exists_cons_of_ne_nil (hvals (k0, vs0) (List.mem_cons_self _ _))
  rw [groupStream_cons] at hmerge
  simp only [List.map_cons, List.cons_append] at hmerge
  have hstreams : ((shards.map Prod.snd).filter (fun s => !s.isEmpty)).isEmpty = false := by
    cases hh : (shards.map Prod.snd).filter (fun s => !s.isEmpty) with
    | nil => rw [hh, mergeStreams_nil] at hmerge; exact absurd hmerge (by simp)
    | cons a l => rfl
  have hk0 : equal k0 k0 = true := hrefl (k0, _) (List.mem_cons_self _ _)
  have hloop : reduceLoop equal reduce k0 [v0] (vs1.map (fun v => (k0, v)) ++ groupStream gs2) =
      ((k0, v0 :: vs1) :: gs2, reduceWrites reduce ((k0, v0 :: vs1) :: gs2), none) := by
    rw [reduceLoop_run equal reduce k0 hk0 vs1 [v0] (groupStream gs2)]
    refine reduceLoop_groups equal reduce gs2 k0 (v0 :: vs1) hk0
      (fun g hg => hrefl g (List.mem_cons_of_mem _ hg)) ?_
      (fun g hg => hvals g (List.mem_cons_of_mem _ hg))
      (hok (k0, v0 :: vs1) (List.mem_cons_self _ _))
      (fun g hg => hok g (List.mem_cons_of_mem _ hg))
    exact (by simpa using hdist.chain')
  simp [ReduceFunc, hstreams, hmerge, hloop]

theorem reduceFunc_grouping_witness :
    ((ReduceFunc (fun a b => decide (a < b)) (fun a b : String => a == b)
        (fun _ vs => Except.ok (some vs.length)) (Except.ok [7])
        [("s1", groupStream [("a", [1, 2]), ("b", [3])])]).calls =
      [("a", [1, 2]), ("b", [3])] ∧
    (ReduceFunc (fun a b => decide (a < b)) (fun a b : String => a == b)
        (fun _ vs => Except.ok (some vs.length)) (Except.ok [7])
        [("s1", groupStream [("a", [1, 2]), ("b", [3])])]).writes =
      reduceWrites (fun _ vs => Except.ok (some vs.length)) [("a", [1, 2]), ("b", [3])] ++ [7] ∧
    (ReduceFunc (fun a b => decide (a < b)) (fun a b : String => a == b)
        (fun _ vs => Except.ok (some vs.length)) (Except.ok [7])
        [("s1", groupStream [("a", [1, 2]), ("b", [3])])]).err = none) :=
  reduceFunc_grouping (fun a b => decide (a < b)) (fun a b : String => a == b)
    (fun _ vs => Except.ok (some vs.length)) [7]
    [("s1", groupStream [("a", [1, 2]), ("b", [3])])]
    [("a", [1, 2]), ("b", [3])]
    (by decide) (by decide) (by decide) (by decide)
    (fun g _ => ⟨some g.2.length, rfl⟩) (by decide)

end Mapreduce
